import Mathlib

/-!
Shallow embedding of the roachedis key-value store (Go sources:
`kv_store_go.go` at the repository root, `server/kv_store_go.go`, and
`hydrator/cache_hydrator.go`), together with theorems settling the
spec claims about it.

Modelling conventions:
* The CockroachDB `kv_log` table is a `List LogEntry`; a database that is
  unreachable or whose queries error is modelled by the `failing` flag
  (any `db.Exec` / `row.Scan` returns a non-`ErrNoRows` error exactly when
  `failing = true`).
* The Redis cache is an association list plus a `failing` flag; per the Go
  client, `Get` on a failing cache returns an error, while `Set`/`Del`
  errors are ignored by all callers (only logged), so they leave the
  state unchanged.
* `TIMESTAMPTZ` values are `Nat` (only their ordering is used).
* Go's multi-value returns `(value, found, err)` become
  `Except Unit (String × Bool)`.
* HTTP responses are the inductive `HResp`, carrying exactly the data the
  handlers write.
-/

namespace Roachedis

/-- `LogEntry` from `kv_store_go.go`: one row of the append-only `kv_log`
table. -/
structure LogEntry where
  key : String
  value : String
  timestamp : Nat
  deleted : Bool
deriving DecidableEq, Repr

/-- The CockroachDB state seen through the `database/sql` handle: the rows
of `kv_log` plus a flag modelling the store being unreachable/erroring. -/
structure DB where
  log : List LogEntry
  failing : Bool
deriving DecidableEq, Repr

/-- The Redis state: the key/value pairs plus a flag modelling the cache
being unreachable/erroring. -/
structure Cache where
  entries : List (String × String)
  failing : Bool
deriving DecidableEq, Repr

/-- Result of `redisClient.Get(ctx, key).Result()`: a value, the
`redis.Nil` miss, or any other error. -/
inductive CacheGetResult where
  | hit (v : String)
  | miss
  | err
deriving DecidableEq, Repr

/-- Association-list lookup backing the Redis key space (first binding
wins; `cacheSet` prepends, so the first binding is the latest write). -/
def cacheLookup : List (String × String) → String → Option String
  | [], _ => none
  | (k', v) :: rest, k => if k' = k then some v else cacheLookup rest k

/-- `redisClient.Get(ctx, key).Result()`. -/
def cacheGet (c : Cache) (k : String) : CacheGetResult :=
  if c.failing then .err
  else
    match cacheLookup c.entries k with
    | some v => .hit v
    | none => .miss

/-- `redisClient.Set(ctx, key, v, 0)`. Every caller in the repository
discards or only logs the error, so a failing cache is left unchanged. -/
def cacheSet (c : Cache) (k v : String) : Cache :=
  if c.failing then c
  else { c with entries := (k, v) :: c.entries }

/-- `redisClient.Del(ctx, key)`. Every caller discards or only logs the
error, so a failing cache is left unchanged. -/
def cacheDel (c : Cache) (k : String) : Cache :=
  if c.failing then c
  else { c with entries := c.entries.filter (fun p => p.1 != k) }

/-- The row selected by
`SELECT value, deleted FROM kv_log WHERE key = $1 ORDER BY timestamp DESC
LIMIT 1`: the maximum-timestamp row among the rows for `k` (SQL leaves
the choice among equal timestamps unspecified; `argmax` fixes one). -/
def latestEntry (log : List LogEntry) (k : String) : Option LogEntry :=
  (log.filter (fun x => x.key == k)).argmax LogEntry.timestamp

/-- `getLatestValueFromLog` (identical in the root and `server/` files):
returns `(value, found, err)`; `sql.ErrNoRows` and a tombstone both yield
`("", false, nil)`. -/
def getLatestValueFromLog (db : DB) (k : String) : Except Unit (String × Bool) :=
  if db.failing then .error ()
  else
    match latestEntry db.log k with
    | none => .ok ("", false)
    | some e => if e.deleted then .ok ("", false) else .ok (e.value, true)

/-- `appendToLog` (identical in both server files):
`INSERT INTO kv_log (key, value, timestamp, deleted) VALUES (...)`. -/
def appendToLog (db : DB) (e : LogEntry) : Except Unit DB :=
  if db.failing then .error ()
  else .ok { db with log := db.log ++ [e] }

/-- Outcome of `json.NewDecoder(r.Body).Decode(&payload)` for the PUT
body `{"value": string}`: either the decode fails, or it yields the
`value` field (the empty string when the field is absent, Go's zero
value). -/
inductive PutBody where
  | invalid
  | valid (value : String)
deriving DecidableEq, Repr

/-- The HTTP responses the handlers produce. -/
inductive HResp where
  | kv (key value : String)
  | okEmpty
  | created (entry : LogEntry)
  | badRequest (msg : String)
  | notFound
  | internalError
deriving DecidableEq, Repr

/-- HTTP status code of a response. -/
def HResp.code : HResp → Nat
  | .kv _ _ => 200
  | .okEmpty => 200
  | .created _ => 201
  | .badRequest _ => 400
  | .notFound => 404
  | .internalError => 500

/-- `handleGet` of the root `kv_store_go.go`. An empty key is rejected;
a cache hit returns immediately; a cache error other than `redis.Nil`
returns 500; on a miss the per-key mutex is taken, the cache re-checked
(in this sequential embedding the second `Get` sees the same state), and
the log fallback runs, repopulating the cache on a found value (its
`Set` error only logged). Returns the response and the cache state. -/
def handleGet (cache : Cache) (db : DB) (k : String) : HResp × Cache :=
  if k = "" then (.badRequest "Key is required", cache)
  else
    match cacheGet cache k with
    | .hit v => (.kv k v, cache)
    | .err => (.internalError, cache)
    | .miss =>
      match cacheGet cache k with
      | .hit v => (.kv k v, cache)
      | _ =>
        match getLatestValueFromLog db k with
        | .error _ => (.internalError, cache)
        | .ok (_, false) => (.notFound, cache)
        | .ok (v, true) => (.kv k v, cacheSet cache k v)

/-- `handlePut` of the root `kv_store_go.go`: rejects an empty key,
an undecodable body, and an empty value; appends the entry to the log
(500 on failure); on success updates the Redis cache (error only logged)
and replies 201 with the entry. -/
def handlePut (cache : Cache) (db : DB) (k : String) (body : PutBody) (now : Nat) :
    HResp × DB × Cache :=
  if k = "" then (.badRequest "Key is required", db, cache)
  else
    match body with
    | .invalid => (.badRequest "Invalid request body", db, cache)
    | .valid v =>
      if v = "" then (.badRequest "Value is required", db, cache)
      else
        let entry : LogEntry := { key := k, value := v, timestamp := now, deleted := false }
        match appendToLog db entry with
        | .error _ => (.internalError, db, cache)
        | .ok db2 => (.created entry, db2, cacheSet cache k v)

/-- `handleDelete` of the root `kv_store_go.go`: appends a tombstone
(500 on failure); on success invalidates the cache entry (error only
logged) and replies 200. -/
def handleDelete (cache : Cache) (db : DB) (k : String) (now : Nat) :
    HResp × DB × Cache :=
  if k = "" then (.badRequest "Key is required", db, cache)
  else
    let entry : LogEntry := { key := k, value := "", timestamp := now, deleted := true }
    match appendToLog db entry with
    | .error _ => (.internalError, db, cache)
    | .ok db2 => (.okEmpty, db2, cacheDel cache k)

namespace Server

/-- `handleGet` of `server/kv_store_go.go`: a cache hit (`err == nil`)
returns immediately; everything else — miss or any cache error — falls
through to the log fallback, repopulating the cache on a found value. -/
def handleGet (cache : Cache) (db : DB) (k : String) : HResp × Cache :=
  match cacheGet cache k with
  | .hit v => (.kv k v, cache)
  | _ =>
    match getLatestValueFromLog db k with
    | .error _ => (.internalError, cache)
    | .ok (_, false) => (.notFound, cache)
    | .ok (v, true) => (.kv k v, cacheSet cache k v)

/-- `handlePut` of `server/kv_store_go.go`: the server's only job on a
write is to append to the log; the cache is never touched. -/
def handlePut (cache : Cache) (db : DB) (k : String) (body : PutBody) (now : Nat) :
    HResp × DB × Cache :=
  match body with
  | .invalid => (.badRequest "Invalid request body", db, cache)
  | .valid v =>
    let entry : LogEntry := { key := k, value := v, timestamp := now, deleted := false }
    match appendToLog db entry with
    | .error _ => (.internalError, db, cache)
    | .ok db2 => (.created entry, db2, cache)

/-- `handleDelete` of `server/kv_store_go.go`: writes a tombstone to the
log only; the cache is never touched. -/
def handleDelete (cache : Cache) (db : DB) (k : String) (now : Nat) :
    HResp × DB × Cache :=
  let entry : LogEntry := { key := k, value := "", timestamp := now, deleted := true }
  match appendToLog db entry with
  | .error _ => (.internalError, db, cache)
  | .ok db2 => (.okEmpty, db2, cache)

end Server

/-- `ChangefeedMessage` from `hydrator/cache_hydrator.go`: the JSON
payload of a changefeed row event. -/
structure ChangefeedMessage where
  key : String
  value : String
  deleted : Bool
deriving DecidableEq, Repr

/-- One row delivered by the CockroachDB changefeed, classified by what
`value.Valid` and `json.Unmarshal` find: `absent` is a payload-less
checkpoint/heartbeat row (`value` NULL), `malformed` a payload
`json.Unmarshal` rejects, `wellFormed` a payload that parses. -/
inductive RawPayload where
  | absent
  | malformed (raw : String)
  | wellFormed (msg : ChangefeedMessage)
deriving DecidableEq, Repr

namespace Hydrator

/-- The hydrator's application of one parsed message to Redis:
`Del` on a tombstone, otherwise an unconditional `Set` (no timestamp
comparison — the message carries none). -/
def applyMessage (c : Cache) (msg : ChangefeedMessage) : Cache :=
  if msg.deleted then cacheDel c msg.key else cacheSet c msg.key msg.value

/-- One iteration of the hydrator's `for rows.Next()` loop body:
checkpoint rows and unparseable payloads are skipped (`continue`), a
parsed message is applied to the cache. -/
def processEvent (c : Cache) (ev : RawPayload) : Cache :=
  match ev with
  | .absent => c
  | .malformed _ => c
  | .wellFormed msg => applyMessage c msg

/-- The whole `for rows.Next()` loop over the rows the subscription
delivers before it disconnects. -/
def processEvents (c : Cache) (evs : List RawPayload) : Cache :=
  evs.foldl processEvent c

/-- What one run of the hydrator `main` does after connecting: how many
times it subscribed (`db.Query(changefeedQuery)`), the final cache
state, and whether `main` returned (ending the process). -/
structure RunOutcome where
  subscriptions : Nat
  finalCache : Cache
  mainReturned : Bool
deriving DecidableEq, Repr

/-- The steady state of the hydrator `main` (both versions in
`hydrator/cache_hydrator.go`): it issues `db.Query(changefeedQuery)`
exactly once, folds the loop body over the delivered rows, and — the
loop being the last statement of `main` — returns when `rows.Next()`
reports the stream ended. There is no retry loop around the
subscription. -/
def mainLoop (c : Cache) (stream : List RawPayload) : RunOutcome :=
  { subscriptions := 1, finalCache := processEvents c stream, mainReturned := true }

end Hydrator

/-! ## Theorems about the claims -/

/-- If `e` is the unique maximum-timestamp record for `k` in the log,
the `LIMIT 1` row of the fallback query is `e`. -/
theorem latestEntry_eq_of_max (log : List LogEntry) (k : String) (e : LogEntry)
    (hmem : e ∈ log) (hkey : e.key = k)
    (hmax : ∀ e' ∈ log, e'.key = k → e' = e ∨ e'.timestamp < e.timestamp) :
    latestEntry log k = some e := by
  have hef : e ∈ log.filter (fun x => x.key == k) := by
    simp only [List.mem_filter, beq_iff_eq]
    exact ⟨hmem, hkey⟩
  have hne : log.filter (fun x => x.key == k) ≠ [] := by
    intro h
    rw [h] at hef
    exact List.not_mem_nil e hef
  obtain ⟨m, hm⟩ : ∃ m, (log.filter (fun x => x.key == k)).argmax LogEntry.timestamp = some m := by
    cases hc : (log.filter (fun x => x.key == k)).argmax LogEntry.timestamp with
    | none => exact absurd (List.argmax_eq_none.mp hc) hne
    | some m => exact ⟨m, rfl⟩
  have hmarg : m ∈ (log.filter (fun x => x.key == k)).argmax LogEntry.timestamp :=
    Option.mem_def.mpr hm
  have hmfil : m ∈ log.filter (fun x => x.key == k) := List.argmax_mem hmarg
  have hmlog : m ∈ log := (List.mem_filter.mp hmfil).1
  have hmkey : m.key = k := by
    have h2 := (List.mem_filter.mp hmfil).2
    simpa using h2
  have hnotlt : ¬ m.timestamp < e.timestamp :=
    List.not_lt_of_mem_argmax hef hmarg
  have hme : m = e := by
    rcases hmax m hmlog hmkey with h | h
    · exact h
    · exact absurd h hnotlt
  rw [latestEntry, hm, hme]

/-- C1: for every key with at least one log record, the log-fallback read
`getLatestValueFromLog` returns the value of the (unique) maximum-timestamp
record for that key — for any ordering of the records in the store — and
reports it found when that record is not a tombstone. -/
theorem c1_fallback_returns_max_timestamp_value (db : DB) (k : String) (e : LogEntry)
    (hfail : db.failing = false) (hmem : e ∈ db.log) (hkey : e.key = k)
    (hdel : e.deleted = false)
    (hmax : ∀ e' ∈ db.log, e'.key = k → e' = e ∨ e'.timestamp < e.timestamp) :
    getLatestValueFromLog db k = .ok (e.value, true) := by
  rw [getLatestValueFromLog, hfail, if_neg (by simp),
    latestEntry_eq_of_max db.log k e hmem hkey hmax]
  simp [hdel]

/-- C1 witness: records for `"k"` at timestamps `2` (value `"v2"`) and
`1` (value `"v1"`) inserted in reverse timestamp order; the fallback read
returns the `t = 2` value. -/
theorem c1_fallback_returns_max_timestamp_value_witness :
    getLatestValueFromLog
      { log := [{ key := "k", value := "v2", timestamp := 2, deleted := false },
                { key := "k", value := "v1", timestamp := 1, deleted := false }],
        failing := false } "k"
      = .ok ("v2", true) :=
  c1_fallback_returns_max_timestamp_value _ "k"
    { key := "k", value := "v2", timestamp := 2, deleted := false }
    rfl (by decide) rfl rfl (by decide)

/-- C2: a `Get` that reaches the log fallback (non-empty key, cache miss)
has exactly three outcomes — no record for the key yields 404, a
max-timestamp tombstone yields 404, a max-timestamp value yields 200 with
that value — and a log query error yields 500. -/
theorem c2_get_fallback_outcomes (cache : Cache) (db : DB) (k : String)
    (hk : ¬ k = "") (hmiss : cacheGet cache k = .miss) :
    (db.failing = true →
      (handleGet cache db k).1 = .internalError ∧ (handleGet cache db k).1.code = 500) ∧
    (db.failing = false → latestEntry db.log k = none →
      (handleGet cache db k).1 = .notFound ∧ (handleGet cache db k).1.code = 404) ∧
    (∀ e, db.failing = false → latestEntry db.log k = some e → e.deleted = true →
      (handleGet cache db k).1 = .notFound ∧ (handleGet cache db k).1.code = 404) ∧
    (∀ e, db.failing = false → latestEntry db.log k = some e → e.deleted = false →
      (handleGet cache db k).1 = .kv k e.value ∧ (handleGet cache db k).1.code = 200) := by
  refine ⟨?_, ?_, ?_, ?_⟩
  · intro hf
    simp [handleGet, hk, hmiss, getLatestValueFromLog, hf, HResp.code]
  · intro hf hnone
    simp [handleGet, hk, hmiss, getLatestValueFromLog, hf, hnone, HResp.code]
  · intro e hf hsome hdel
    simp [handleGet, hk, hmiss, getLatestValueFromLog, hf, hsome, hdel, HResp.code]
  · intro e hf hsome hdel
    simp [handleGet, hk, hmiss, getLatestValueFromLog, hf, hsome, hdel, HResp.code]

/-- C2 witness: empty cache, log holding a single tombstone for `"a"`;
the fallback read reports 404. -/
theorem c2_get_fallback_outcomes_witness :
    (handleGet { entries := [], failing := false }
        { log := [{ key := "a", value := "", timestamp := 5, deleted := true }],
          failing := false } "a").1 = .notFound :=
  ((c2_get_fallback_outcomes _ _ "a" (by decide) (by decide)).2.2.1
    { key := "a", value := "", timestamp := 5, deleted := true }
    rfl (by decide) rfl).1

/-- C3 counterexample: in the root `kv_store_go.go`, the write path does
mutate the cache. A successful `handlePut` of `"v"` under `"k"` turns a
cache miss into a hit and changes the cache state, and a successful
`handleDelete` removes the cached entry. -/
theorem c3_root_write_path_mutates_cache_cex :
    cacheGet { entries := [], failing := false } "k" = .miss ∧
    cacheGet (handlePut { entries := [], failing := false }
      { log := [], failing := false } "k" (.valid "v") 0).2.2 "k" = .hit "v" ∧
    (handlePut { entries := [], failing := false }
      { log := [], failing := false } "k" (.valid "v") 0).2.2
      ≠ ({ entries := [], failing := false } : Cache) ∧
    (handleDelete { entries := [("k", "v")], failing := false }
      { log := [], failing := false } "k" 0).2.2
      ≠ ({ entries := [("k", "v")], failing := false } : Cache) := by
  decide

/-- C3 amended: in `server/kv_store_go.go` the write path performs no
cache mutation on any execution — `handlePut` and `handleDelete` return
the cache unchanged — and when the log is up each appends exactly one
record (`deleted = false` with the given value for Put; `deleted = true`
with value `""` for Delete). -/
theorem c3_server_write_path_no_cache_mutation (cache : Cache) (db : DB)
    (k v : String) (body : PutBody) (now : Nat) :
    (Server.handlePut cache db k body now).2.2 = cache ∧
    (Server.handleDelete cache db k now).2.2 = cache ∧
    (db.failing = false →
      (Server.handlePut cache db k (.valid v) now).2.1.log
        = db.log ++ [{ key := k, value := v, timestamp := now, deleted := false }]) ∧
    (db.failing = false →
      (Server.handleDelete cache db k now).2.1.log
        = db.log ++ [{ key := k, value := "", timestamp := now, deleted := true }]) := by
  refine ⟨?_, ?_, ?_, ?_⟩
  · cases body with
    | invalid => rfl
    | valid v2 =>
      cases hf : db.failing <;> simp [Server.handlePut, appendToLog, hf]
  · cases hf : db.failing <;> simp [Server.handleDelete, appendToLog, hf]
  · intro hf
    simp [Server.handlePut, appendToLog, hf]
  · intro hf
    simp [Server.handleDelete, appendToLog, hf]

/-- C3 amended witness: a concrete `server/` Put leaves the cache exactly
as it was and appends the one expected record. -/
theorem c3_server_write_path_no_cache_mutation_witness :
    (Server.handlePut { entries := [], failing := false }
       { log := [], failing := false } "k" (.valid "v") 3).2.2
      = ({ entries := [], failing := false } : Cache) ∧
    (Server.handlePut { entries := [], failing := false }
       { log := [], failing := false } "k" (.valid "v") 3).2.1.log
      = [{ key := "k", value := "v", timestamp := 3, deleted := false }] :=
  ⟨(c3_server_write_path_no_cache_mutation
      { entries := [], failing := false } { log := [], failing := false }
      "k" "v" (.valid "v") 3).1,
   (c3_server_write_path_no_cache_mutation
      { entries := [], failing := false } { log := [], failing := false }
      "k" "v" (.valid "v") 3).2.2.1 rfl⟩

/-- C4 counterexample: in the root `kv_store_go.go`, a cache error other
than a plain miss is surfaced as HTTP 500 even though the log answers
authoritatively: with an unreachable cache and a log holding `"v"` for
`"k"`, `handleGet` returns 500 while the fallback read alone would have
returned `"v"`. -/
theorem c4_root_cache_error_surfaced_cex :
    (handleGet { entries := [], failing := true }
      { log := [{ key := "k", value := "v", timestamp := 1, deleted := false }],
        failing := false } "k").1 = .internalError ∧
    getLatestValueFromLog
      { log := [{ key := "k", value := "v", timestamp := 1, deleted := false }],
        failing := false } "k" = .ok ("v", true) :=
  ⟨by decide, rfl⟩

/-- C4 amended: in `server/kv_store_go.go` a cache error degrades to the
log fallback — the request yields 500 exactly when the log itself fails,
and with a healthy log the response is the fallback classification of the
key's latest record. -/
theorem c4_server_cache_error_degrades (cache : Cache) (db : DB) (k : String)
    (herr : cacheGet cache k = .err) :
    ((Server.handleGet cache db k).1 = .internalError ↔ db.failing = true) ∧
    (db.failing = false →
      (Server.handleGet cache db k).1 =
        match latestEntry db.log k with
        | none => .notFound
        | some e => if e.deleted then .notFound else .kv k e.value) := by
  constructor
  · cases hf : db.failing
    · simp only [Server.handleGet, herr, getLatestValueFromLog, hf]
      cases hle : latestEntry db.log k with
      | none => simp
      | some e =>
        cases hd : e.deleted <;> simp [hd]
    · simp [Server.handleGet, herr, getLatestValueFromLog, hf]
  · intro hf
    simp only [Server.handleGet, herr, getLatestValueFromLog, hf]
    cases hle : latestEntry db.log k with
    | none => simp
    | some e =>
      cases hd : e.deleted <;> simp [hd]

/-- C4 amended witness: unreachable cache, healthy log holding `"v"`
for `"x"`; the `server/` read is not a 500 and returns the fallback
value. -/
theorem c4_server_cache_error_degrades_witness :
    ((Server.handleGet { entries := [], failing := true }
        { log := [{ key := "x", value := "v", timestamp := 1, deleted := false }],
          failing := false } "x").1 = .internalError
      ↔ ({ log := [{ key := "x", value := "v", timestamp := 1, deleted := false }],
           failing := false } : DB).failing = true) ∧
    (Server.handleGet { entries := [], failing := true }
        { log := [{ key := "x", value := "v", timestamp := 1, deleted := false }],
          failing := false } "x").1 = .kv "x" "v" :=
  ⟨(c4_server_cache_error_degrades { entries := [], failing := true }
      { log := [{ key := "x", value := "v", timestamp := 1, deleted := false }],
        failing := false } "x" (by decide)).1,
   by
    have h := (c4_server_cache_error_degrades { entries := [], failing := true }
      { log := [{ key := "x", value := "v", timestamp := 1, deleted := false }],
        failing := false } "x" (by decide)).2 rfl
    rw [h]
    decide⟩

/-- Deleting a key from the association list makes its lookup miss. -/
theorem cacheLookup_filter_self (l : List (String × String)) (k : String) :
    cacheLookup (l.filter (fun p => p.1 != k)) k = none := by
  induction l with
  | nil => rfl
  | cons a rest ih =>
    obtain ⟨a1, a2⟩ := a
    by_cases h : a1 = k
    · simp [List.filter_cons, h, ih]
    · simp [List.filter_cons, h, cacheLookup, ih]

/-- Deleting a key leaves every other key's lookup unchanged. -/
theorem cacheLookup_filter_ne (l : List (String × String)) (k k' : String)
    (h : k' ≠ k) :
    cacheLookup (l.filter (fun p => p.1 != k)) k' = cacheLookup l k' := by
  induction l with
  | nil => rfl
  | cons a rest ih =>
    obtain ⟨a1, a2⟩ := a
    by_cases h1 : a1 = k
    · subst h1
      simp [List.filter_cons, cacheLookup, Ne.symm h, ih]
    · simp [List.filter_cons, h1, cacheLookup, ih]

/-- C5: on a well-formed change event the hydrator removes the key from
the cache when `deleted` is true, and otherwise sets `key → value` as an
unconditional overwrite — the result holds for every prior cache content,
no timestamp being consulted (the message carries none) — while every
other key is untouched. -/
theorem c5_hydrator_applies_unconditionally (c : Cache) (msg : ChangefeedMessage)
    (hc : c.failing = false) :
    (msg.deleted = true →
      cacheLookup (Hydrator.applyMessage c msg).entries msg.key = none) ∧
    (msg.deleted = false →
      cacheLookup (Hydrator.applyMessage c msg).entries msg.key = some msg.value) ∧
    (∀ k', k' ≠ msg.key →
      cacheLookup (Hydrator.applyMessage c msg).entries k' = cacheLookup c.entries k') := by
  refine ⟨?_, ?_, ?_⟩
  · intro hd
    simp [Hydrator.applyMessage, hd, cacheDel, hc, cacheLookup_filter_self]
  · intro hd
    simp [Hydrator.applyMessage, hd, cacheSet, hc, cacheLookup]
  · intro k' hk'
    cases hd : msg.deleted
    · simp [Hydrator.applyMessage, hd, cacheSet, hc, cacheLookup, Ne.symm hk']
    · simp [Hydrator.applyMessage, hd, cacheDel, hc,
        cacheLookup_filter_ne c.entries msg.key k' hk']

/-- C5 witness: an event for `"a"` with value `"new"` overwrites the
cached `"old"` unconditionally. -/
theorem c5_hydrator_applies_unconditionally_witness :
    cacheLookup (Hydrator.applyMessage { entries := [("a", "old")], failing := false }
      { key := "a", value := "new", deleted := false }).entries "a" = some "new" :=
  (c5_hydrator_applies_unconditionally
    { entries := [("a", "old")], failing := false }
    { key := "a", value := "new", deleted := false } rfl).2.1 rfl

/-- C6: when the log append fails, a Put (well-formed non-empty value)
and a Delete both return HTTP 500, no record is written (the log is
unchanged), no success response is produced, and the cache is not
modified on the failure path. -/
theorem c6_append_failure_fails_call (cache : Cache) (db : DB) (k v : String)
    (now : Nat) (hfail : db.failing = true) (hk : ¬ k = "") (hv : ¬ v = "") :
    (handlePut cache db k (.valid v) now).1 = .internalError ∧
    (handlePut cache db k (.valid v) now).1.code = 500 ∧
    (handlePut cache db k (.valid v) now).2.1 = db ∧
    (handlePut cache db k (.valid v) now).2.2 = cache ∧
    (handleDelete cache db k now).1 = .internalError ∧
    (handleDelete cache db k now).1.code = 500 ∧
    (handleDelete cache db k now).2.1 = db ∧
    (handleDelete cache db k now).2.2 = cache := by
  refine ⟨?_, ?_, ?_, ?_, ?_, ?_, ?_, ?_⟩ <;>
    simp [handlePut, handleDelete, appendToLog, hfail, hk, hv, HResp.code]

/-- C6 witness: a failing log store turns a concrete Put into a 500 with
log and cache untouched. -/
theorem c6_append_failure_fails_call_witness :
    (handlePut { entries := [], failing := false } { log := [], failing := true }
       "k" (.valid "v") 0).1 = .internalError ∧
    (handlePut { entries := [], failing := false } { log := [], failing := true }
       "k" (.valid "v") 0).2.1 = ({ log := [], failing := true } : DB) :=
  ⟨(c6_append_failure_fails_call { entries := [], failing := false }
      { log := [], failing := true } "k" "v" 0 rfl (by decide) (by decide)).1,
   (c6_append_failure_fails_call { entries := [], failing := false }
      { log := [], failing := true } "k" "v" 0 rfl (by decide) (by decide)).2.2.1⟩

/-- C7: a payload-less changefeed row (checkpoint/heartbeat) and a
payload that fails to parse are both skipped with no effect on the cache,
and in either case processing continues with the remaining events. -/
theorem c7_bad_events_skipped (c : Cache) (raw : String) (evs : List RawPayload) :
    Hydrator.processEvent c .absent = c ∧
    Hydrator.processEvent c (.malformed raw) = c ∧
    Hydrator.processEvents c (.absent :: evs) = Hydrator.processEvents c evs ∧
    Hydrator.processEvents c (.malformed raw :: evs) = Hydrator.processEvents c evs :=
  ⟨rfl, rfl, rfl, rfl⟩

/-- C8: when the changefeed subscription ends (stream disconnect), the
hydrator `main` has issued exactly one subscription and returns,
terminating the process — it does not resubscribe. This contradicts the
claim; the code is missing the resubscribe loop the spec requires. -/
theorem c8_hydrator_terminates_without_resubscribe (c : Cache)
    (stream : List RawPayload) :
    (Hydrator.mainLoop c stream).subscriptions = 1 ∧
    (Hydrator.mainLoop c stream).mainReturned = true ∧
    (Hydrator.mainLoop c stream).finalCache = Hydrator.processEvents c stream :=
  ⟨rfl, rfl, rfl⟩

/-- C10: a well-formed Put body whose `value` is the empty string (which
is also what an absent `value` field decodes to) is rejected by the root
server with HTTP 400, and nothing is appended to the log. -/
theorem c10_root_put_rejects_empty_value (cache : Cache) (db : DB) (k : String)
    (now : Nat) (hk : ¬ k = "") :
    (handlePut cache db k (.valid "") now).1 = .badRequest "Value is required" ∧
    (handlePut cache db k (.valid "") now).1.code = 400 ∧
    (handlePut cache db k (.valid "") now).2.1 = db ∧
    (handlePut cache db k (.valid "") now).2.2 = cache := by
  refine ⟨?_, ?_, ?_, ?_⟩ <;> simp [handlePut, hk, HResp.code]

/-- C10 witness: the concrete empty-value Put is a 400 and the log stays
empty. -/
theorem c10_root_put_rejects_empty_value_witness :
    (handlePut { entries := [], failing := false } { log := [], failing := false }
       "k" (.valid "") 0).1 = .badRequest "Value is required" ∧
    (handlePut { entries := [], failing := false } { log := [], failing := false }
       "k" (.valid "") 0).2.1 = ({ log := [], failing := false } : DB) :=
  ⟨(c10_root_put_rejects_empty_value { entries := [], failing := false }
      { log := [], failing := false } "k" 0 (by decide)).1,
   (c10_root_put_rejects_empty_value { entries := [], failing := false }
      { log := [], failing := false } "k" 0 (by decide)).2.2.1⟩

end Roachedis
